import Mathlib

/-!
Shallow embedding of the caching and classification layer of the
github-issues-tracker dashboard (src/shared.mjs; the file contains two
byte-identical copies of every function below, at lines 42-261 and
1112-1335 — one embedding covers both).

Modelling conventions:
* `window.localStorage` is a finite map from string keys to stored strings;
  we model it as an association list `Store α` whose stored strings are
  abstracted by how `JSON.parse` sees them (`StoredVal`).
* `Date.now()` is passed explicitly as an `Int` argument `now`
  (epoch milliseconds); time does not advance during one call.
* JavaScript string primitives used by the code (`startsWith`, `includes`,
  `toLowerCase`, `split`) are modelled by executable character-list
  functions (`strStarts`, `strIncludes`, `strLower`, `strSplit`); `toLowerCase`
  is modelled per-character with `Char.toLower`, which agrees with JS on the
  ASCII range used by every label pattern in the code.
* `async` functions that can reject are embedded with `Except`;
  `console.log`/`console.error` calls and the DOM side effects of
  `fetchGitHub` (showing the token section on 401/403) are I/O-free
  no-ops from the point of view of the data they return and are dropped.
-/

/-- Model of JS `pre.startsWith`-style prefix test on character lists:
`listStarts needle hay` is true iff `needle` is a prefix of `hay`. -/
def listStarts : List Char → List Char → Bool
  | [], _ => true
  | _ :: _, [] => false
  | a :: as, b :: bs => a == b && listStarts as bs

/-- Model of JS `String.prototype.includes` on character lists:
`containsSub needle hay` is true iff `needle` occurs contiguously in `hay`. -/
def containsSub (needle : List Char) : List Char → Bool
  | [] => needle.isEmpty
  | c :: rest => listStarts needle (c :: rest) || containsSub needle rest

/-- Model of JS `s.startsWith(pre)`. -/
def strStarts (s pre : String) : Bool := listStarts pre.data s.data

/-- Model of JS `s.includes(pat)`. -/
def strIncludes (s pat : String) : Bool := containsSub pat.data s.data

/-- Model of JS `s.toLowerCase()` (character-wise; exact on ASCII). -/
def strLower (s : String) : String := ⟨s.data.map Char.toLower⟩

/-- Helper for `strSplit`: split a character list at every occurrence of
`sep`, keeping empty groups, as JS `split` does. -/
def splitCharList (sep : Char) : List Char → List (List Char)
  | [] => [[]]
  | c :: rest =>
    match splitCharList sep rest with
    | [] => [[c]]
    | g :: gs => if c == sep then [] :: g :: gs else (c :: g) :: gs

/-- Model of JS `s.split(sep)` for a single-character separator:
`"a/b".split('/') = ["a","b"]`, `"".split('/') = [""]`. -/
def strSplit (s : String) (sep : Char) : List String :=
  (splitCharList sep s.data).map String.mk

/-- Cache configuration, shared.mjs line 5: `CACHE_DURATION_MS = 60 * 60 * 1000`
(one hour, in milliseconds). -/
def CACHE_DURATION_MS : Int := 60 * 60 * 1000

/-- How `JSON.parse` sees one stored `localStorage` string.
`record data timestamp` is a string produced by
`JSON.stringify({data, timestamp})` (the only shape `setCachedData` writes);
`malformed` is the empty string or any string on which the read path throws
(`JSON.parse` failure, or a parse result that cannot be destructured).
A well-formed JSON value of a foreign shape is not representable here; no
modelled operation writes one. -/
inductive StoredVal (α : Type) where
  | malformed : StoredVal α
  | record (data : α) (timestamp : Int) : StoredVal α
  deriving DecidableEq

/-- Model of `window.localStorage`: an association list from keys to stored
values. Keys written through `setItem` are unique. -/
abbrev Store (α : Type) := List (String × StoredVal α)

/-- Model of `localStorage.getItem(k)` (with `!cached` folding the empty
string into `malformed`, see `StoredVal`). -/
def lookupStore {α : Type} (k : String) : Store α → Option (StoredVal α)
  | [] => none
  | e :: rest => if e.1 = k then some e.2 else lookupStore k rest

/-- Model of `localStorage.removeItem(k)`. -/
def removeKey {α : Type} (k : String) : Store α → Store α
  | [] => []
  | e :: rest => if e.1 = k then removeKey k rest else e :: removeKey k rest

/-- Model of `localStorage.setItem(k, v)`: replaces any value stored at `k`.
No modelled operation observes key order, so the new entry goes in front. -/
def setItem {α : Type} (k : String) (v : StoredVal α) (s : Store α) : Store α :=
  (k, v) :: removeKey k s

/-- Cache key construction, shared.mjs lines 145 and 173:
`` `${CACHE_KEY_PREFIX}${repo}_${openOnly ? 'open' : 'all'}` `` with
the fixed namespace `'github_cache_'`. -/
def cacheKey (repo : String) (openOnly : Bool) : String :=
  "github_cache_" ++ repo ++ "_" ++ (if openOnly then "open" else "all")

/-- Value returned by a cache hit, shared.mjs line 157:
`{ ...data, _cacheTimestamp: timestamp, _fromCache: true }`.
`data` carries the spread fields, `timestamp` the `_cacheTimestamp`
annotation; `_fromCache: true` is implicit in being a hit. -/
structure CacheHit (α : Type) where
  data : α
  timestamp : Int
  deriving DecidableEq

/-- Embedding of `getCachedData(repo, openOnly)`, shared.mjs lines 144-167.
Returns the hit (or `none`) together with the possibly mutated store:
a fresh record (`now - timestamp < CACHE_DURATION_MS`) is returned with its
capture timestamp and the store untouched; an expired record is removed and
the read misses; an absent or malformed record misses with the store
untouched (the `catch` path). -/
def getCachedData {α : Type} (repo : String) (openOnly : Bool) (now : Int)
    (store : Store α) : Option (CacheHit α) × Store α :=
  match lookupStore (cacheKey repo openOnly) store with
  | none => (none, store)
  | some .malformed => (none, store)
  | some (.record data timestamp) =>
    if now - timestamp < CACHE_DURATION_MS then
      (some ⟨data, timestamp⟩, store)
    else
      (none, removeKey (cacheKey repo openOnly) store)

/-- Embedding of `setCachedData(repo, openOnly, data)`, shared.mjs
lines 172-183: stores `{data, timestamp: Date.now()}` under the composite
key, overwriting silently. (The `catch` for quota errors is a no-op on the
returned data and is not modelled.) -/
def setCachedData {α : Type} (repo : String) (openOnly : Bool) (now : Int)
    (data : α) (store : Store α) : Store α :=
  setItem (cacheKey repo openOnly) (.record data now) store

/-- Embedding of `clearCache(repos = null)`, shared.mjs lines 188-211.
`repos = null` is `none`; a JS array argument is `some rs` (an empty array
is falsy-length, so it takes the clear-all branch, exactly as
`repos && repos.length > 0` does). Returns `cacheKeys.length` and the
store after `cacheKeys.forEach(key => localStorage.removeItem(key))`. -/
def clearCache {α : Type} (repos : Option (List String)) (store : Store α) :
    Nat × Store α :=
  let keys := store.map (·.1)
  let cacheKeys :=
    match repos with
    | some rs =>
      if rs.length > 0 then
        keys.filter (fun key =>
          strStarts key "github_cache_" &&
          rs.any (fun repo => strIncludes key ("github_cache_" ++ repo ++ "_")))
      else
        keys.filter (fun key => strStarts key "github_cache_")
    | none => keys.filter (fun key => strStarts key "github_cache_")
  (cacheKeys.length, cacheKeys.foldl (fun s k => removeKey k s) store)

/-- One element of an item's `labels` array, shared.mjs line 77:
either a bare string or an object with a `name` field. -/
inductive LabelF where
  | str (s : String)
  | obj (name : String)
  deriving DecidableEq

/-- Shared.mjs lines 77-78: `typeof label === 'string' ? label : label.name`. -/
def labelName : LabelF → String
  | .str s => s
  | .obj name => name

/-- An item's `type` field as `classifyItem` inspects it, shared.mjs
line 118: absent (or otherwise falsy), a string (not an object), or an
object with an optional `name` field. -/
inductive TypeField where
  | undef
  | str (s : String)
  | obj (name : Option String)
  deriving DecidableEq

/-- One issue-or-pull-request record as fetched from the API. The fields
`classifyItem` and `fetchRepositoryData` inspect are explicit; every other
field of the JS object is carried opaquely in `rest` (the object spread
`{...item}` copies them all). `pullRequest` is the truthiness of the
`pull_request` marker field. -/
structure Item (α : Type) where
  labels : List LabelF
  type : TypeField
  pullRequest : Bool
  rest : α
  deriving DecidableEq

/-- The object `classifyItem` returns, shared.mjs lines 129-138:
`{...item, type}` plus `repoName` when a repo annotation was given. The
`type` field now holds the category string, replacing the input's `type`. -/
structure ClassifiedItem (α : Type) where
  labels : List LabelF
  type : String
  pullRequest : Bool
  rest : α
  repoName : Option String
  deriving DecidableEq

/-- Bug test applied to one lowercased label name, shared.mjs lines 84-94. -/
def isBugLabel (label : String) : Bool :=
  label == "bug" ||
  label == "bugs" ||
  strStarts label "bug:" ||
  strStarts label "bug " ||
  strIncludes label "defect" ||
  strIncludes label "error" ||
  label == "fix" ||
  strStarts label "fix:" ||
  strStarts label "fix "

/-- Feature test applied to one lowercased label name, shared.mjs
lines 98-112. -/
def isFeatureLabel (label : String) : Bool :=
  label == "feature" ||
  label == "features" ||
  strStarts label "feature:" ||
  strStarts label "feature " ||
  label == "enhancement" ||
  label == "enhancements" ||
  strStarts label "enhancement:" ||
  strStarts label "enhancement " ||
  label == "improvement" ||
  strStarts label "improvement:" ||
  strStarts label "improvement " ||
  label == "feat" ||
  strStarts label "feat:" ||
  strStarts label "feat "

/-- Label-derived category, shared.mjs lines 77-115: lowercase every label
name, then `'bug'` if some label passes the bug test, else `'feature'` if
some label passes the feature test, else the default `'other'`. -/
def labelType (labelFields : List LabelF) : String :=
  let labels := labelFields.map (fun l => strLower (labelName l))
  if labels.any isBugLabel then "bug"
  else if labels.any isFeatureLabel then "feature"
  else "other"

/-- Type-hint override, shared.mjs lines 118-127: entered only when
`item.type` is an object whose `name` is truthy (a non-empty string);
the lowercased name forces `bug`/`feature`/`task` on exact match, and any
other name leaves the label-derived category standing (`none` here). -/
def typeOverride : TypeField → Option String
  | .obj (some name) =>
    if name = "" then none
    else
      let typeName := strLower name
      if typeName = "bug" then some "bug"
      else if typeName = "feature" then some "feature"
      else if typeName = "task" then some "task"
      else none
  | _ => none

/-- The `repoName` annotation, shared.mjs lines 134-136: set only when the
`repo` argument is truthy (so not for `null` or the empty string). -/
def repoField : Option String → Option String
  | some r => if r = "" then none else some r
  | none => none

/-- Embedding of `classifyItem(item, repo = null)`, shared.mjs
lines 76-139. -/
def classifyItem {α : Type} (it : Item α) (repo : Option String := none) :
    ClassifiedItem α :=
  { labels := it.labels
    type := (typeOverride it.type).getD (labelType it.labels)
    pullRequest := it.pullRequest
    rest := it.rest
    repoName := repoField repo }

/-- What a thrown JS `Error` carries: `new Error(msg)` has exactly a
`message` property (shared.mjs line 67 attaches nothing else). -/
structure JsError where
  message : String
  deriving DecidableEq

/-- An HTTP response as `fetchGitHub` observes it. `errorBody` is how
`response.json()` resolves on the error path: `none` when the body is not
valid JSON (the `.catch` fires), `some m` when it parses, with `m` the
parsed object's `message` field (`none` absent, `some ""` empty hence
falsy). `json` is the parsed body on the success path. -/
structure HttpResponse (α : Type) where
  ok : Bool
  status : Nat
  statusText : String
  errorBody : Option (Option String)
  json : α

/-- Embedding of `fetchGitHub(url)`, shared.mjs lines 42-71, as a function
of the response the URL produced. On `!response.ok` it throws
`new Error(error.message || ` `HTTP ${response.status}` `)` where `error`
is the parsed JSON body, or `{message: response.statusText}` when the body
fails to parse. (The 401/403 DOM hook mutates no returned data.) -/
def fetchGitHub {α : Type} (resp : HttpResponse α) : Except JsError α :=
  if resp.ok then
    .ok resp.json
  else
    let parsedMessage : Option String :=
      match resp.errorBody with
      | none => some resp.statusText
      | some m => m
    let msg : String :=
      match parsedMessage with
      | some s => if s = "" then "HTTP " ++ toString resp.status else s
      | none => "HTTP " ++ toString resp.status
    .error { message := msg }

/-- The aggregated per-repository result, shared.mjs lines 236-243 and
251-259. `owner`/`repoName` come from `repo.split('/')` (absent positions
are JS `undefined`, here `none`). `cacheTimestamp` and `fromCache` model
the `_cacheTimestamp`/`_fromCache` annotations a cache hit adds; fresh
results carry the defaults. -/
structure RepoResult (α : Type) where
  repo : String
  owner : Option String
  repoName : Option String
  issues : List (ClassifiedItem α)
  pullRequests : List (ClassifiedItem α)
  success : Bool
  error : Option String := none
  cacheTimestamp : Option Int := none
  fromCache : Bool := false
  deriving DecidableEq

/-- Embedding of `fetchRepositoryData(repo, openOnly = false)`, shared.mjs
lines 216-261. `fetched` is the settled outcome of the single
`fetchGitHub` call the try-block makes (the only step in it that can
throw; partitioning and classification are total on well-formed items).
Cache first: a hit is returned annotated with its capture timestamp and
from-cache flag. On a miss, a fulfilled fetch is partitioned on the
`pull_request` marker, classified with the repo annotation, cached and
returned with `success: true`; a rejected fetch is converted into the
structured failure result — the function itself never throws. -/
def fetchRepositoryData {α : Type} (repo : String) (openOnly : Bool)
    (now : Int) (fetched : Except JsError (List (Item α)))
    (store : Store (RepoResult α)) : RepoResult α × Store (RepoResult α) :=
  let parts := strSplit repo '/'
  let owner := parts[0]?
  let repoName := parts[1]?
  match (getCachedData repo openOnly now store).1 with
  | some hit =>
    ({ hit.data with cacheTimestamp := some hit.timestamp, fromCache := true },
     (getCachedData repo openOnly now store).2)
  | none =>
    let store' := (getCachedData repo openOnly now store).2
    match fetched with
    | .ok issuesAndPRs =>
      let issues := issuesAndPRs.filter (fun item => !item.pullRequest)
      let pullRequests := issuesAndPRs.filter (fun item => item.pullRequest)
      let result : RepoResult α :=
        { repo, owner, repoName
          issues := issues.map (fun item => classifyItem item (some repo))
          pullRequests := pullRequests.map (fun item => classifyItem item (some repo))
          success := true }
      (result, setCachedData repo openOnly now result store')
    | .error e =>
      ({ repo, owner, repoName, issues := [], pullRequests := [],
         success := false, error := some e.message }, store')

/-- Looking up a key that `removeKey` just removed misses. -/
theorem lookupStore_removeKey_self {α : Type} (k : String) (s : Store α) :
    lookupStore k (removeKey k s) = none := by
  induction s with
  | nil => rfl
  | cons e rest ih =>
    by_cases h : e.1 = k
    · simpa [removeKey, h] using ih
    · simpa [removeKey, h, lookupStore] using ih

/-- Removing one key leaves lookups of any other key unchanged. -/
theorem lookupStore_removeKey_ne {α : Type} (k k' : String) (h : k ≠ k')
    (s : Store α) : lookupStore k (removeKey k' s) = lookupStore k s := by
  induction s with
  | nil => rfl
  | cons e rest ih =>
    by_cases he : e.1 = k'
    · have hek : k' ≠ k := fun hk => h hk.symm
      simp [removeKey, he, lookupStore, hek, ih]
    · simp [removeKey, he, lookupStore, ih]

/-- The two composite keys of one repository are distinct: the `'open'` and
`'all'` discriminators give them different lengths. -/
theorem cacheKey_open_ne_all (repo : String) :
    cacheKey repo true ≠ cacheKey repo false := by
  intro h
  have h2 := congrArg (fun s => s.data.length) h
  cases repo with
  | mk d => simp [cacheKey, String.data] at h2

/-- Claim C2: a cache entry captured at time `timestamp` is returned fresh
by `getCachedData` exactly while `now - timestamp < CACHE_DURATION_MS`
(one hour); once the age reaches the TTL — equality included — the read
misses and deletes the underlying record. -/
theorem getCachedData_ttl_expiry {α : Type} (repo : String) (openOnly : Bool)
    (data : α) (timestamp now : Int) (store : Store α)
    (hstored : lookupStore (cacheKey repo openOnly) store =
      some (.record data timestamp)) :
    (now - timestamp < CACHE_DURATION_MS →
      getCachedData repo openOnly now store = (some ⟨data, timestamp⟩, store)) ∧
    (CACHE_DURATION_MS ≤ now - timestamp →
      (getCachedData repo openOnly now store).1 = none ∧
      lookupStore (cacheKey repo openOnly)
        (getCachedData repo openOnly now store).2 = none) := by
  constructor
  · intro hfresh
    simp [getCachedData, hstored, hfresh]
  · intro hexp
    have hlt : ¬ (now - timestamp < CACHE_DURATION_MS) := not_lt.mpr hexp
    simp [getCachedData, hstored, hlt, lookupStore_removeKey_self]

/-- Witness for C2: a record captured at 1000 is fresh when read at the
same instant and expired when read at 1000 + TTL exactly (age = TTL),
where the read also deletes the record. -/
theorem getCachedData_ttl_expiry_witness :
    getCachedData "owner/a" true 1000
        [(cacheKey "owner/a" true, StoredVal.record (5 : Nat) 1000)] =
      (some ⟨5, 1000⟩,
        [(cacheKey "owner/a" true, StoredVal.record (5 : Nat) 1000)]) ∧
    (getCachedData "owner/a" true 3601000
        [(cacheKey "owner/a" true, StoredVal.record (5 : Nat) 1000)]).1 = none ∧
    lookupStore (cacheKey "owner/a" true)
      (getCachedData "owner/a" true 3601000
        [(cacheKey "owner/a" true, StoredVal.record (5 : Nat) 1000)]).2 = none := by
  refine ⟨?_, ?_, ?_⟩
  · exact (getCachedData_ttl_expiry "owner/a" true 5 1000 1000 _
      (by decide)).1 (by decide)
  · exact ((getCachedData_ttl_expiry "owner/a" true 5 1000 3601000 _
      (by decide)).2 (by decide)).1
  · exact ((getCachedData_ttl_expiry "owner/a" true 5 1000 3601000 _
      (by decide)).2 (by decide)).2

/-- Claim C3: writing `setCachedData repo true v` and reading it back at
the same instant returns `v` together with its capture timestamp (the
cache-hit annotation), while the read under the other state filter misses,
the composite keys being distinct — provided nothing was stored under the
other filter's key. -/
theorem cache_round_trip {α : Type} (repo : String) (v : α) (now : Int)
    (store : Store α)
    (hother : lookupStore (cacheKey repo false) store = none) :
    getCachedData repo true now (setCachedData repo true now v store) =
      (some ⟨v, now⟩, setCachedData repo true now v store) ∧
    (getCachedData repo false now (setCachedData repo true now v store)).1 =
      none := by
  have hne : cacheKey repo true ≠ cacheKey repo false := cacheKey_open_ne_all repo
  constructor
  · simp [getCachedData, setCachedData, setItem, lookupStore, CACHE_DURATION_MS]
  · simp [getCachedData, setCachedData, setItem, lookupStore, hne,
      lookupStore_removeKey_ne _ _ (Ne.symm hne), hother]

/-- Witness for C3: on an empty store, a put under the `open` filter is
read back fresh under `open` and missed under `all`. -/
theorem cache_round_trip_witness :
    lookupStore (cacheKey "r" false) ([] : Store Nat) = none ∧
    (getCachedData "r" true 0 (setCachedData "r" true 0 (5 : Nat) []) =
      (some ⟨5, 0⟩, setCachedData "r" true 0 (5 : Nat) []) ∧
    (getCachedData "r" false 0 (setCachedData "r" true 0 (5 : Nat) [])).1 =
      none) :=
  ⟨rfl, cache_round_trip "r" 5 0 [] rfl⟩

/-- Claim C9: a stored value that is not well-formed JSON makes
`getCachedData` miss while leaving the store exactly as it was — the
malformed record is not deleted, so the very same read (at this or any
later time) misses again; only the expiry path mutates the store. -/
theorem getCachedData_malformed_no_mutation {α : Type} (repo : String)
    (openOnly : Bool) (now : Int) (store : Store α)
    (h : lookupStore (cacheKey repo openOnly) store = some .malformed) :
    getCachedData repo openOnly now store = (none, store) := by
  simp [getCachedData, h]

/-- Witness for C9: a malformed record under the composite key yields a
miss and an unchanged store. -/
theorem getCachedData_malformed_no_mutation_witness :
    lookupStore (cacheKey "r" true)
        [(cacheKey "r" true, (StoredVal.malformed : StoredVal Nat))] =
      some StoredVal.malformed ∧
    getCachedData "r" true 99
        [(cacheKey "r" true, (StoredVal.malformed : StoredVal Nat))] =
      (none, [(cacheKey "r" true, (StoredVal.malformed : StoredVal Nat))]) :=
  ⟨by decide, getCachedData_malformed_no_mutation "r" true 99 _ (by decide)⟩

/-- Claim C4: a structured type hint whose lowercased `name` is `bug`,
`feature` or `task` forces that category, whatever the labels say — in
particular `task`, which no label path can produce. -/
theorem classifyItem_type_hint_dominates {α : Type} (it : Item α)
    (repo : Option String) (name : String)
    (htype : it.type = .obj (some name)) :
    (strLower name = "bug" → (classifyItem it repo).type = "bug") ∧
    (strLower name = "feature" → (classifyItem it repo).type = "feature") ∧
    (strLower name = "task" → (classifyItem it repo).type = "task") := by
  refine ⟨fun hl => ?_, fun hl => ?_, fun hl => ?_⟩
  all_goals
    have hne : name ≠ "" := by intro h0; subst h0; revert hl; decide
  all_goals
    simp [classifyItem, typeOverride, htype, hne, hl]

/-- Witness for C4: `labels = ["feature"]` with `type = {name: "Task"}`
classifies as `task`. -/
theorem classifyItem_type_hint_dominates_witness :
    strLower "Task" = "task" ∧
    (classifyItem
      (Item.mk [LabelF.str "feature"] (TypeField.obj (some "Task")) false
        (0 : Nat)) none).type = "task" :=
  ⟨by decide,
    (classifyItem_type_hint_dominates _ none "Task" rfl).2.2 (by decide)⟩

/-- Claim C5: with no structured type hint, an item carrying both a
bug-pattern label and a feature-pattern label classifies as `bug` — the
bug check runs first and excludes the feature check. -/
theorem classifyItem_bug_beats_feature {α : Type} (it : Item α)
    (repo : Option String) (htype : it.type = .undef)
    (hbug : (it.labels.map (fun l => strLower (labelName l))).any isBugLabel
      = true)
    (hfeat : (it.labels.map (fun l => strLower (labelName l))).any
      isFeatureLabel = true) :
    (classifyItem it repo).type = "bug" := by
  simp [classifyItem, typeOverride, htype, labelType, hbug]

/-- Witness for C5: labels `["Fix: crash", {name: "Feature"}]` match a bug
pattern and a feature pattern; the item classifies as `bug`. -/
theorem classifyItem_bug_beats_feature_witness :
    ((Item.mk [LabelF.str "Fix: crash", LabelF.obj "Feature"] TypeField.undef
        false (0 : Nat)).labels.map (fun l => strLower (labelName l))).any
      isBugLabel = true ∧
    ((Item.mk [LabelF.str "Fix: crash", LabelF.obj "Feature"] TypeField.undef
        false (0 : Nat)).labels.map (fun l => strLower (labelName l))).any
      isFeatureLabel = true ∧
    (classifyItem
      (Item.mk [LabelF.str "Fix: crash", LabelF.obj "Feature"] TypeField.undef
        false (0 : Nat)) none).type = "bug" :=
  ⟨by decide, by decide,
    classifyItem_bug_beats_feature _ none rfl (by decide) (by decide)⟩

/-- Claim C10: when the `type` field is absent, a string, or an object
whose lowercased name is none of `bug`/`feature`/`task`, the output is the
input with `type` replaced by the label-derived category (the original
`type` value never survives) and every other field copied unchanged, plus
the `repoName` annotation derived from the `repo` argument. -/
theorem classifyItem_no_hint_frame {α : Type} (it : Item α)
    (repo : Option String)
    (h : it.type = .undef ∨ (∃ s, it.type = .str s) ∨ it.type = .obj none ∨
      ∃ name, it.type = .obj (some name) ∧ strLower name ≠ "bug" ∧
        strLower name ≠ "feature" ∧ strLower name ≠ "task") :
    classifyItem it repo =
      { labels := it.labels, type := labelType it.labels,
        pullRequest := it.pullRequest, rest := it.rest,
        repoName := repoField repo } := by
  have hov : typeOverride it.type = none := by
    rcases h with h | ⟨s, h⟩ | h | ⟨name, h, h1, h2, h3⟩
    · rw [h]; rfl
    · rw [h]; rfl
    · rw [h]; rfl
    · rw [h]
      by_cases h0 : name = ""
      · simp [typeOverride, h0]
      · simp [typeOverride, h0, h1, h2, h3]
  simp [classifyItem, hov]

/-- Witness for C10: a string-valued `type` field `"Task"` does not
override; the `enhancement` label yields `feature`, the other fields are
copied, and the repo annotation is attached. -/
theorem classifyItem_no_hint_frame_witness :
    classifyItem
      (Item.mk [LabelF.str "enhancement"] (TypeField.str "Task") true
        (7 : Nat)) (some "o/r") =
      { labels := [LabelF.str "enhancement"], type := "feature",
        pullRequest := true, rest := 7, repoName := some "o/r" } :=
  (classifyItem_no_hint_frame
    (Item.mk [LabelF.str "enhancement"] (TypeField.str "Task") true (7 : Nat))
    (some "o/r") (Or.inr (Or.inl ⟨"Task", rfl⟩))).trans (by decide)

/-- Claim C1: on a cache miss, a rejected fetch never escapes
`fetchRepositoryData` — the settled value is the structured failure
result carrying the same `repo`, empty `issues` and `pullRequests`,
`success = false` and the thrown error's message. (In this embedding the
function is total: the fetch is the only fallible step of the try-block,
and its rejection is the `Except.error` argument; partitioning and
classification are total on well-formed items.) -/
theorem fetchRepositoryData_fetch_failure_is_data {α : Type} (repo : String)
    (openOnly : Bool) (now : Int) (e : JsError) (store : Store (RepoResult α))
    (hmiss : (getCachedData repo openOnly now store).1 = none) :
    (fetchRepositoryData repo openOnly now (.error e) store).1 =
      { repo := repo, owner := (strSplit repo '/')[0]?,
        repoName := (strSplit repo '/')[1]?, issues := [], pullRequests := [],
        success := false, error := some e.message } := by
  simp [fetchRepositoryData, hmiss]

/-- Witness for C1: an empty cache and a fetch rejecting with message
`"boom"` produce the structured failure result for `owner/a`. -/
theorem fetchRepositoryData_fetch_failure_is_data_witness :
    (getCachedData "owner/a" false 0 ([] : Store (RepoResult Nat))).1 =
      none ∧
    (fetchRepositoryData "owner/a" false 0 (Except.error ⟨"boom"⟩)
        ([] : Store (RepoResult Nat))).1 =
      { repo := "owner/a", owner := some "owner", repoName := some "a",
        issues := [], pullRequests := [], success := false,
        error := some "boom" } :=
  ⟨rfl,
    (fetchRepositoryData_fetch_failure_is_data "owner/a" false 0 ⟨"boom"⟩ []
      rfl).trans (by decide)⟩

/-- Appending the data of two strings concatenates their character lists. -/
theorem string_data_append (s t : String) : (s ++ t).data = s.data ++ t.data := by
  cases s; cases t; rfl

/-- A character list is a prefix of itself followed by anything. -/
theorem listStarts_append_self (l t : List Char) : listStarts l (l ++ t) = true := by
  induction l with
  | nil => rfl
  | cons c cs ih => simp [listStarts, ih]

/-- A character list occurs in itself followed by anything. -/
theorem containsSub_append_self (l t : List Char) :
    containsSub l (l ++ t) = true := by
  cases l with
  | nil => cases t <;> simp [containsSub, listStarts]
  | cons c cs =>
    simp [containsSub]
    exact Or.inl (by simpa using listStarts_append_self (c :: cs) t)

/-- JS `startsWith` holds between a concatenation and its left part. -/
theorem strStarts_append (p t : String) : strStarts (p ++ t) p = true := by
  unfold strStarts
  rw [string_data_append]
  exact listStarts_append_self p.data t.data

/-- JS `includes` holds between a concatenation and its left part. -/
theorem strIncludes_append (p t : String) : strIncludes (p ++ t) p = true := by
  unfold strIncludes
  rw [string_data_append]
  exact containsSub_append_self p.data t.data

/-- `removeKey` is a filter on the key. -/
theorem removeKey_eq_filter {α : Type} (k : String) (s : Store α) :
    removeKey k s = s.filter (fun e => !(e.1 == k)) := by
  induction s with
  | nil => rfl
  | cons e rest ih =>
    by_cases h : e.1 = k <;> simp [removeKey, h, List.filter_cons, ih]

/-- Deleting each key of a list from a store keeps exactly the entries
whose key is not listed. -/
theorem foldl_removeKey {α : Type} (ks : List String) (store : Store α) :
    ks.foldl (fun s k => removeKey k s) store =
      store.filter (fun e => !(ks.any (fun k => e.1 == k))) := by
  induction ks generalizing store with
  | nil => simp
  | cons k ks ih =>
    rw [List.foldl_cons, ih, removeKey_eq_filter, List.filter_filter]
    apply List.filter_congr
    intro e _
    simp only [List.any_cons, Bool.not_or]
    exact Bool.and_comm _ _

/-- The number of keys of a store selected by a key predicate is the
number of entries selected by it. -/
theorem clearSelected_count {α : Type} (p : String → Bool) (store : Store α) :
    ((store.map (·.1)).filter p).length =
      (store.filter (fun e => p e.1)).length := by
  rw [List.filter_map]
  simp [Function.comp_def]

/-- Deleting every key a key predicate selects keeps exactly the entries
it rejects. -/
theorem clearSelected_foldl {α : Type} (p : String → Bool) (store : Store α) :
    ((store.map (·.1)).filter p).foldl (fun s k => removeKey k s) store =
      store.filter (fun e => !(p e.1)) := by
  rw [foldl_removeKey]
  apply List.filter_congr
  intro e he
  congr 1
  cases hp : p e.1 with
  | true =>
    exact List.any_eq_true.mpr
      ⟨e.1, List.mem_filter.mpr ⟨List.mem_map.mpr ⟨e, he, rfl⟩, hp⟩, by simp⟩
  | false =>
    refine Bool.eq_false_iff.mpr fun hany => ?_
    obtain ⟨k, hk, hbeq⟩ := List.any_eq_true.mp hany
    have hk2 := (List.mem_filter.mp hk).2
    have hek : e.1 = k := by simpa using hbeq
    rw [hek] at hp
    rw [hp] at hk2
    exact Bool.false_ne_true hk2

/-- A key a key predicate rejects is absent from the filtered store. -/
theorem lookupStore_filter_key {α : Type} (k : String) (q : String → Bool)
    (s : Store α) (hq : q k = false) :
    lookupStore k (s.filter (fun e => q e.1)) = none := by
  induction s with
  | nil => rfl
  | cons e rest ih =>
    rw [List.filter_cons]
    by_cases hk : e.1 = k
    · simp [hk, hq, ih]
    · by_cases hqe : q e.1 <;> simp [hqe, lookupStore, hk, ih]

/-- Claim C8: `clearCache([])` — a present but empty repository list — is
not a no-op: `repos && repos.length > 0` fails, so it takes the same
branch as `clearCache()` and deletes every entry under the cache prefix,
returning the total count. -/
theorem clearCache_empty_list_clears_all {α : Type} (store : Store α) :
    clearCache (some ([] : List String)) store = clearCache none store ∧
    (clearCache (some ([] : List String)) store).1 =
      (store.filter (fun e => strStarts e.1 "github_cache_")).length ∧
    (clearCache (some ([] : List String)) store).2 =
      store.filter (fun e => !(strStarts e.1 "github_cache_")) := by
  refine ⟨rfl, ?_, ?_⟩
  · exact clearSelected_count (fun key => strStarts key "github_cache_") store
  · exact clearSelected_foldl (fun key => strStarts key "github_cache_") store

/-- Counterexample to C6 as stated: clearing `["owner/a"]` also deletes the
entry of the different repository `owner/a_x`, because selection is by
substring match on `github_cache_owner/a_`, which the key
`github_cache_owner/a_x_open` contains. Two entries are deleted, not one;
`owner/b` is untouched, as the claim's own example expects. -/
theorem clearCache_selective_cex :
    lookupStore (cacheKey "owner/a_x" true)
        [(cacheKey "owner/a" true, StoredVal.record (1 : Nat) 0),
         (cacheKey "owner/a_x" true, StoredVal.record (2 : Nat) 0),
         (cacheKey "owner/b" true, StoredVal.record (3 : Nat) 0)] =
      some (StoredVal.record 2 0) ∧
    (clearCache (some ["owner/a"])
        [(cacheKey "owner/a" true, StoredVal.record (1 : Nat) 0),
         (cacheKey "owner/a_x" true, StoredVal.record (2 : Nat) 0),
         (cacheKey "owner/b" true, StoredVal.record (3 : Nat) 0)]).1 = 2 ∧
    lookupStore (cacheKey "owner/a_x" true)
      (clearCache (some ["owner/a"])
        [(cacheKey "owner/a" true, StoredVal.record (1 : Nat) 0),
         (cacheKey "owner/a_x" true, StoredVal.record (2 : Nat) 0),
         (cacheKey "owner/b" true, StoredVal.record (3 : Nat) 0)]).2 = none ∧
    lookupStore (cacheKey "owner/b" true)
      (clearCache (some ["owner/a"])
        [(cacheKey "owner/a" true, StoredVal.record (1 : Nat) 0),
         (cacheKey "owner/a_x" true, StoredVal.record (2 : Nat) 0),
         (cacheKey "owner/b" true, StoredVal.record (3 : Nat) 0)]).2 =
      some (StoredVal.record 3 0) := by
  decide

/-- Claim C6 amended: for a non-empty repository list, `clearCache` deletes
exactly the entries whose key starts with the cache prefix and contains
`github_cache_<r>_` for some listed `r` — in particular both entries of
every listed repository (shown here for any listed `r` and either filter),
but possibly also entries of a repository whose key merely contains that
substring, such as `owner/a_x` when clearing `owner/a` — and returns the
number of entries deleted. With no argument it deletes exactly the entries
under the cache prefix, again returning the count. -/
theorem clearCache_selective_amended {α : Type} (rs : List String)
    (hrs : rs ≠ []) (store : Store α) (r : String) (hr : r ∈ rs) (b : Bool) :
    (clearCache (some rs) store).1 =
      (store.filter (fun e => strStarts e.1 "github_cache_" &&
        rs.any (fun repo =>
          strIncludes e.1 ("github_cache_" ++ repo ++ "_")))).length ∧
    (clearCache (some rs) store).2 =
      store.filter (fun e => !(strStarts e.1 "github_cache_" &&
        rs.any (fun repo =>
          strIncludes e.1 ("github_cache_" ++ repo ++ "_")))) ∧
    lookupStore (cacheKey r b) (clearCache (some rs) store).2 = none ∧
    (clearCache (none : Option (List String)) store).1 =
      (store.filter (fun e => strStarts e.1 "github_cache_")).length ∧
    (clearCache (none : Option (List String)) store).2 =
      store.filter (fun e => !(strStarts e.1 "github_cache_")) := by
  have hlen : rs.length > 0 := List.length_pos.mpr hrs
  have hcc : clearCache (some rs) store =
      (((store.map (·.1)).filter (fun key => strStarts key "github_cache_" &&
          rs.any (fun repo =>
            strIncludes key ("github_cache_" ++ repo ++ "_")))).length,
       ((store.map (·.1)).filter (fun key => strStarts key "github_cache_" &&
          rs.any (fun repo =>
            strIncludes key ("github_cache_" ++ repo ++ "_")))).foldl
         (fun s k => removeKey k s) store) := by
    simp [clearCache, hlen]
  have h2 : (clearCache (some rs) store).2 =
      store.filter (fun e => !(strStarts e.1 "github_cache_" &&
        rs.any (fun repo =>
          strIncludes e.1 ("github_cache_" ++ repo ++ "_")))) := by
    rw [hcc]; exact clearSelected_foldl _ store
  have hstart : strStarts (cacheKey r b) "github_cache_" = true := by
    unfold strStarts cacheKey
    rw [string_data_append, string_data_append, string_data_append,
      List.append_assoc, List.append_assoc]
    exact listStarts_append_self _ _
  have hincl :
      strIncludes (cacheKey r b) ("github_cache_" ++ r ++ "_") = true := by
    have hk : cacheKey r b =
        ("github_cache_" ++ r ++ "_") ++ (if b then "open" else "all") := rfl
    rw [hk]; exact strIncludes_append _ _
  have hany : rs.any (fun repo =>
      strIncludes (cacheKey r b) ("github_cache_" ++ repo ++ "_")) = true :=
    List.any_eq_true.mpr ⟨r, hr, hincl⟩
  refine ⟨?_, h2, ?_, ?_, ?_⟩
  · rw [hcc]; exact clearSelected_count _ store
  · rw [h2]
    exact lookupStore_filter_key (cacheKey r b)
      (fun key => !(strStarts key "github_cache_" &&
        rs.any (fun repo =>
          strIncludes key ("github_cache_" ++ repo ++ "_")))) store
      (by simp [hstart, hany])
  · exact clearSelected_count (fun key => strStarts key "github_cache_") store
  · exact clearSelected_foldl (fun key => strStarts key "github_cache_") store

/-- Witness for C6 amended: clearing `["owner/a"]` on a three-entry store
deletes two entries (those whose keys contain `github_cache_owner/a_`) and
the listed repository's own `open` entry is gone afterwards. -/
theorem clearCache_selective_amended_witness :
    (["owner/a"] : List String) ≠ [] ∧
    "owner/a" ∈ (["owner/a"] : List String) ∧
    (clearCache (some ["owner/a"])
        [(cacheKey "owner/a" true, StoredVal.record (1 : Nat) 0),
         (cacheKey "owner/a_x" true, StoredVal.record (2 : Nat) 0),
         (cacheKey "owner/b" true, StoredVal.record (3 : Nat) 0)]).1 = 2 ∧
    lookupStore (cacheKey "owner/a" true)
      (clearCache (some ["owner/a"])
        [(cacheKey "owner/a" true, StoredVal.record (1 : Nat) 0),
         (cacheKey "owner/a_x" true, StoredVal.record (2 : Nat) 0),
         (cacheKey "owner/b" true, StoredVal.record (3 : Nat) 0)]).2 = none := by
  refine ⟨by decide, by decide, ?_, ?_⟩
  · exact ((clearCache_selective_amended ["owner/a"] (by decide) _ "owner/a"
      (by decide) true).1).trans (by decide)
  · exact (clearCache_selective_amended ["owner/a"] (by decide) _ "owner/a"
      (by decide) true).2.2.1

/-- Counterexample to C7 as stated: the value `fetchGitHub` throws is a
plain `Error` carrying only a message, not a typed error with a status
field — two non-success responses differing in status (404 vs 500) but
sharing a JSON body message throw identical errors, so the status code is
not recoverable from the raised value; and when the JSON body parses but
has no `message`, the fallback is `"HTTP 404"`, not the status text. -/
theorem fetchGitHub_error_cex :
    fetchGitHub
        (HttpResponse.mk false 404 "Not Found" (some (some "Oops")) (0 : Nat)) =
      fetchGitHub
        (HttpResponse.mk false 500 "Server Error" (some (some "Oops"))
          (0 : Nat)) ∧
    (404 : Nat) ≠ 500 ∧
    fetchGitHub (HttpResponse.mk false 404 "Not Found" (some none) (0 : Nat)) =
      .error ⟨"HTTP 404"⟩ ∧
    "HTTP 404" ≠ "Not Found" :=
  ⟨rfl, by decide, rfl, by decide⟩

/-- Claim C7 amended: on a non-success status, `fetchGitHub` raises an
error carrying only a human-readable message: the parsed JSON error body's
`message` when present and non-empty; `HTTP <status>` when the body parses
without a usable message; and the status text (or `HTTP <status>` when
that text is empty) when the body is not valid JSON. No structured status
field is attached to the raised error. -/
theorem fetchGitHub_error_amended {α : Type} (resp : HttpResponse α)
    (h : resp.ok = false) :
    fetchGitHub resp = .error { message :=
      match resp.errorBody with
      | some (some s) => if s = "" then "HTTP " ++ toString resp.status else s
      | some none => "HTTP " ++ toString resp.status
      | none =>
        if resp.statusText = "" then "HTTP " ++ toString resp.status
        else resp.statusText } := by
  simp only [fetchGitHub, h]
  cases hb : resp.errorBody with
  | none => simp [hb]
  | some m => cases m with
    | none => simp [hb]
    | some s => simp [hb]

/-- Witness for C7 amended: a 404 whose body parses without a `message`
yields the error message `HTTP 404`. -/
theorem fetchGitHub_error_amended_witness :
    (HttpResponse.mk false 404 "Not Found" (some none) (0 : Nat)).ok =
      false ∧
    fetchGitHub (HttpResponse.mk false 404 "Not Found" (some none)
        (0 : Nat)) = .error ⟨"HTTP 404"⟩ :=
  ⟨rfl, (fetchGitHub_error_amended _ rfl).trans rfl⟩
